import Mathlib

/-!
Verification of the vicinity/neighbourhood processing subsystem of the
improver repository, as a shallow embedding in Lean 4.

Embedded source files:
* `improver/utilities/spatial.py` — grid geometry (`calculate_grid_spacing`,
  `distance_to_number_of_grid_cells`, `number_of_grid_cells_to_distance`,
  `check_if_grid_is_equal_area`) and `OccurrenceWithinVicinity`
  (`maximum_within_vicinity`).
* `lib/improver/nbhood/use_nbhood.py` — `CollapseMaskedNeighbourhoodCoordinate`
  (`reweight_weights`, `process`).

Machine floats are modelled by `ℚ`; a `NaN` cell in a neighbourhood result is
modelled by `Option ℚ` being `none`.  Fallible functions return
`Except String`.  Mutation of an argument by a Python method is made explicit
by definitions that return the post-call state of that argument.
-/

/-! ## Grid geometry (`improver/utilities/spatial.py`, lines 53-178) -/

/-- Default relative tolerance `rtol=1.0e-5` of `calculate_grid_spacing`. -/
def rtolDefault : ℚ := 1 / 100000

/-- Default absolute tolerance `1e-8` of `np.isclose`. -/
def atolDefault : ℚ := 1 / 100000000

/-- `np.abs(np.diff(points))`: absolute consecutive differences. -/
def diffsOf (points : List ℚ) : List ℚ :=
  List.zipWith (fun a b => |b - a|) points points.tail

/-- `np.mean(diffs)` (`ℚ` convention `x / 0 = 0` stands in for the
degenerate empty-diff case, which the theorems below never use). -/
def meanDiffs (points : List ℚ) : ℚ :=
  (diffsOf points).sum / (diffsOf points).length

/-- `calculate_grid_spacing` (spatial.py lines 80-113) on the axis coordinate
points already converted to the requested unit (unit conversion is an external
collaborator).  `np.allclose(diffs, diffs_mean, rtol=rtol, atol=0.0)` is
`|d - mean| ≤ rtol * |mean|` for every difference `d`. -/
def calculate_grid_spacing (points : List ℚ) (rtol : ℚ) : Except String ℚ :=
  if (diffsOf points).all
      (fun d => decide (|d - meanDiffs points| ≤ rtol * |meanDiffs points|))
  then Except.ok (meanDiffs points)
  else Except.error "Coordinate points are not equally spaced"

/-- `np.isclose` with its default tolerances `rtol=1e-5, atol=1e-8`. -/
def iscloseB (a b : ℚ) : Bool :=
  decide (|a - b| ≤ atolDefault + rtolDefault * |b|)

/-- The spatial coordinates of a cube relevant to the grid-geometry helpers:
the x-axis and y-axis coordinate points, in metres. -/
structure GridCube where
  xpoints : List ℚ
  ypoints : List ℚ

/-- `check_if_grid_is_equal_area` (spatial.py lines 53-77) with the default
`require_equal_xy_spacing=True`. -/
def check_if_grid_is_equal_area (g : GridCube) : Except String Unit :=
  match calculate_grid_spacing g.xpoints rtolDefault with
  | Except.error e => Except.error e
  | Except.ok xd =>
    match calculate_grid_spacing g.ypoints rtolDefault with
    | Except.error e => Except.error e
    | Except.ok yd =>
      if iscloseB xd yd then Except.ok ()
      else Except.error "Grid does not have equal spacing in x and y dimensions"

/-- Python `int()` on a float: truncation toward zero. -/
def ratTrunc (q : ℚ) : ℤ :=
  if 0 ≤ q then ⌊q⌋ else -⌊-q⌋

/-- `distance_to_number_of_grid_cells` (spatial.py lines 116-158).  The Python
return type `Union[float, int]` becomes `ℤ ⊕ ℚ`: `Sum.inl` for the
`return_int=True` path, `Sum.inr` for the float path. -/
def distance_to_number_of_grid_cells (points : List ℚ) (distance : ℚ)
    (return_int : Bool) : Except String (ℤ ⊕ ℚ) :=
  if distance ≤ 0 then
    Except.error "Please specify a positive distance in metres."
  else
    match calculate_grid_spacing points rtolDefault with
    | Except.error e => Except.error e
    | Except.ok spacing =>
      if return_int then
        if ratTrunc (distance / |spacing|) = 0 then
          Except.error "gives zero cell extent"
        else Except.ok (Sum.inl (ratTrunc (distance / |spacing|)))
      else Except.ok (Sum.inr (distance / |spacing|))

/-- `number_of_grid_cells_to_distance` (spatial.py lines 161-178):
`check_if_grid_is_equal_area`, then spacing (default axis x) times the number
of grid points. -/
def number_of_grid_cells_to_distance (g : GridCube) (grid_points : ℤ) :
    Except String ℚ :=
  match check_if_grid_is_equal_area g with
  | Except.error e => Except.error e
  | Except.ok _ =>
    match calculate_grid_spacing g.xpoints rtolDefault with
    | Except.error e => Except.error e
    | Except.ok spacing => Except.ok (spacing * (grid_points : ℚ))

/-- Composition `cells_to_distance (distance_to_cells g d)` used by the
round-trip property. -/
def roundTrip (g : GridCube) (d : ℚ) : Except String ℚ :=
  match distance_to_number_of_grid_cells g.xpoints d true with
  | Except.ok (Sum.inl n) => number_of_grid_cells_to_distance g n
  | Except.ok (Sum.inr _) => Except.error "non-integer cell count"
  | Except.error e => Except.error e

/-- Equally spaced coordinate points `a, a+s, …, a+(n-1)s`. -/
def apPoints (a s : ℚ) (n : ℕ) : List ℚ :=
  (List.range n).map (fun (k : ℕ) => a + (k : ℚ) * s)

lemma apPoints_zero (a s : ℚ) : apPoints a s 0 = [] := rfl

lemma apPoints_succ (a s : ℚ) (n : ℕ) :
    apPoints a s (n + 1) = a :: apPoints (a + s) s n := by
  unfold apPoints
  rw [List.range_succ_eq_map, List.map_cons, List.map_map]
  congr 1
  · norm_num
  · refine List.map_congr_left ?_
    intro k _
    simp only [Function.comp_apply]
    push_cast
    ring

lemma diffsOf_cons_cons (x y : ℚ) (l : List ℚ) :
    diffsOf (x :: y :: l) = |y - x| :: diffsOf (y :: l) := rfl

lemma diffsOf_apPoints (s : ℚ) :
    ∀ (n : ℕ) (a : ℚ), diffsOf (apPoints a s (n + 2)) = List.replicate (n + 1) |s| := by
  intro n
  induction n with
  | zero =>
    intro a
    rw [apPoints_succ, apPoints_succ, apPoints_zero, diffsOf_cons_cons]
    simp [diffsOf, add_sub_cancel_left]
  | succ m ih =>
    intro a
    rw [apPoints_succ]
    have h2 : apPoints (a + s) s (m + 2) = (a + s) :: apPoints (a + s + s) s (m + 1) :=
      apPoints_succ _ _ _
    rw [h2, diffsOf_cons_cons, ← h2, ih (a + s), add_sub_cancel_left]
    rfl

lemma meanDiffs_apPoints (a s : ℚ) (n : ℕ) :
    meanDiffs (apPoints a s (n + 2)) = |s| := by
  unfold meanDiffs
  rw [diffsOf_apPoints]
  rw [List.sum_replicate, List.length_replicate]
  have hn : ((n : ℚ) + 1) ≠ 0 := by positivity
  field_simp [nsmul_eq_mul]

lemma all_replicate_close (x rtol : ℚ) (n : ℕ) (hr : 0 ≤ rtol) :
    ((List.replicate n x).all (fun d => decide (|d - x| ≤ rtol * |x|))) = true := by
  rw [List.all_eq_true]
  intro d hd
  rw [List.eq_of_mem_replicate hd]
  simp only [sub_self, abs_zero, decide_eq_true_eq]
  positivity

lemma calculate_grid_spacing_apPoints (a s rtol : ℚ) (n : ℕ) (hr : 0 ≤ rtol) :
    calculate_grid_spacing (apPoints a s (n + 2)) rtol = Except.ok |s| := by
  unfold calculate_grid_spacing
  rw [meanDiffs_apPoints, diffsOf_apPoints, all_replicate_close _ rtol _ hr]
  rfl

/-! ## Vicinity occurrence (`OccurrenceWithinVicinity`, spatial.py lines 393-519) -/

/-- `netCDF4.default_fillvals['f8']` = `9.969209968386869e+36`, the fill value
used to build the large negative sentinel for float64 data. -/
def fillValue : ℚ := 9969209968386869 * 10 ^ 21

/-- Index reflection of `scipy.ndimage.maximum_filter` at the array boundary
(its default `mode='reflect'`: pattern `d c b a | a b c d | d c b a`). -/
def reflectIdx (n : ℕ) (i : ℤ) : ℕ :=
  let m := (i % ((2 * n : ℕ) : ℤ)).toNat
  if m < n then m else 2 * n - 1 - m

lemma reflectIdx_coe (n i : ℕ) (h : i < n) : reflectIdx n (i : ℤ) = i := by
  unfold reflectIdx
  have h2 : (i : ℤ) % ((2 * n : ℕ) : ℤ) = (i : ℤ) := by
    apply Int.emod_eq_of_lt (by positivity)
    exact_mod_cast Nat.lt_of_lt_of_le h (by omega)
  simp only [h2, Int.toNat_natCast]
  rw [if_pos h]

lemma reflectIdx_lt (n : ℕ) (hn : 0 < n) (i : ℤ) : reflectIdx n i < n := by
  unfold reflectIdx
  have h2n : (0 : ℤ) < ((2 * n : ℕ) : ℤ) := by positivity
  have hlt : (i % ((2 * n : ℕ) : ℤ)) < ((2 * n : ℕ) : ℤ) := Int.emod_lt_of_pos i h2n
  have hge : (0 : ℤ) ≤ i % ((2 * n : ℕ) : ℤ) := Int.emod_nonneg i (by omega)
  have hm : (i % ((2 * n : ℕ) : ℤ)).toNat < 2 * n := by omega
  dsimp only
  split
  · assumption
  · omega

/-- The offsets of the square kernel of edge length `2r + 1` built by
`grid_points = (2 * grid_point_radius) + 1`. -/
def windowOffsets (r : ℕ) : Finset (ℕ × ℕ) :=
  Finset.range (2 * r + 1) ×ˢ Finset.range (2 * r + 1)

lemma windowOffsets_nonempty (r : ℕ) : (windowOffsets r).Nonempty := by
  refine ⟨(0, 0), ?_⟩
  simp [windowOffsets, Finset.mem_product]

lemma center_mem_windowOffsets (r : ℕ) : (r, r) ∈ windowOffsets r := by
  simp only [windowOffsets, Finset.mem_product, Finset.mem_range]
  omega

/-- `scipy.ndimage.maximum_filter(f, size=2*r+1)` at cell `(i, j)` of an
`ny × nx` array: the maximum of `f` over the square window centred on
`(i, j)`, with indices reflected at the boundary. -/
def windowMax (ny nx r : ℕ) (f : ℕ → ℕ → ℚ) (i j : ℕ) : ℚ :=
  (windowOffsets r).sup' (windowOffsets_nonempty r)
    (fun uv => f (reflectIdx ny ((i : ℤ) + (uv.1 : ℤ) - (r : ℤ)))
                 (reflectIdx nx ((j : ℤ) + (uv.2 : ℤ) - (r : ℤ))))

/-- A 2D slice passed to `maximum_within_vicinity`: data values over an
`ny × nx` grid with an element mask (`mask i j = true` means the cell is
masked/missing). -/
structure VicCube where
  ny : ℕ
  nx : ℕ
  data : ℕ → ℕ → ℚ
  mask : ℕ → ℕ → Bool

/-- `unmasked_cube_data` (spatial.py lines 471-474): a working copy in which
originally-masked cells hold the large negative sentinel `-cube_fill_value`. -/
def unmasked_cube_data (c : VicCube) (i j : ℕ) : ℚ :=
  if c.mask i j then -fillValue else c.data i j

/-- `matched_data` (spatial.py lines 478-479): cells of the other land/sea
category are replaced by the sentinel before the windowed maximum. -/
def matched_data (c : VicCube) (lm : ℕ → ℕ → Bool) (b : Bool) (i j : ℕ) : ℚ :=
  if lm i j ≠ b then -fillValue else unmasked_cube_data c i j

/-- `max_data` (spatial.py lines 475-485): with a land mask, each cell takes
the windowed maximum of its own category's pass (the `np.where` recombination
of the `for match in (True, False)` loop); without one, a single windowed
maximum of the working copy. -/
def max_data (c : VicCube) (r : ℕ) (lm : Option (ℕ → ℕ → Bool)) (i j : ℕ) : ℚ :=
  match lm with
  | some m =>
    if m i j then windowMax c.ny c.nx r (matched_data c m true) i j
    else windowMax c.ny c.nx r (matched_data c m false) i j
  | none => windowMax c.ny c.nx r (unmasked_cube_data c) i j

/-- `OccurrenceWithinVicinity.maximum_within_vicinity` (spatial.py lines
436-491) with the radius already resolved to `r` grid cells: the result keeps
the original mask, masked cells keep their original data (only unmasked cells
are updated from the computed maxima, lines 486-490). -/
def maximum_within_vicinity (c : VicCube) (r : ℕ) (lm : Option (ℕ → ℕ → Bool)) :
    VicCube :=
  { c with data := fun i j => if c.mask i j then c.data i j else max_data c r lm i j }

/-- The call `maximum_within_vicinity cube` in state-passing form: the result
cube paired with the post-call state of the input cube.  The source writes
only into `max_cube = cube.copy()` and local working copies (lines 470-490),
so the input is returned unchanged. -/
def maximum_within_vicinity_call (c : VicCube) (r : ℕ)
    (lm : Option (ℕ → ℕ → Bool)) : VicCube × VicCube :=
  (maximum_within_vicinity c r lm, c)

/-- The `elif self.grid_point_radius is not None ... else 0` fallback of the
radius resolution (spatial.py lines 457-460). -/
def resolve_gpr_fallback (grid_point_radius : Option ℤ) : Except String ℤ :=
  match grid_point_radius with
  | some n => Except.ok n
  | none => Except.ok 0

/-- Radius resolution of `maximum_within_vicinity` (spatial.py lines 455-460):
`if self.radius:` (Python truthiness, so a zero radius falls through) converts
the physical radius via `distance_to_number_of_grid_cells`; otherwise the
configured grid-point radius, or 0 when neither is configured. -/
def resolve_grid_point_radius (radius : Option ℚ) (grid_point_radius : Option ℤ)
    (xpoints : List ℚ) : Except String ℤ :=
  match radius with
  | some rad =>
    if rad = 0 then resolve_gpr_fallback grid_point_radius
    else
      match distance_to_number_of_grid_cells xpoints rad true with
      | Except.ok (Sum.inl n) => Except.ok n
      | Except.ok (Sum.inr _) => Except.error "non-integer cell count"
      | Except.error e => Except.error e
  | none => resolve_gpr_fallback grid_point_radius

/-- The set of grid cells a window inspects: the image of the kernel offsets
under boundary reflection. -/
def windowCells (ny nx r i j : ℕ) : Finset (ℕ × ℕ) :=
  (windowOffsets r).image
    (fun uv => (reflectIdx ny ((i : ℤ) + (uv.1 : ℤ) - (r : ℤ)),
                reflectIdx nx ((j : ℤ) + (uv.2 : ℤ) - (r : ℤ))))

/-- The window cells of the same land/sea category as `b` that are not
originally masked. -/
def categoryCells (c : VicCube) (lm : ℕ → ℕ → Bool) (b : Bool) (r i j : ℕ) :
    Finset (ℕ × ℕ) :=
  (windowCells c.ny c.nx r i j).filter
    (fun z => lm z.1 z.2 = b ∧ c.mask z.1 z.2 = false)

lemma windowMax_center_le (ny nx r : ℕ) (f : ℕ → ℕ → ℚ) (i j : ℕ)
    (hi : i < ny) (hj : j < nx) : f i j ≤ windowMax ny nx r f i j := by
  have h := Finset.le_sup'
    (f := fun uv : ℕ × ℕ => f (reflectIdx ny ((i : ℤ) + (uv.1 : ℤ) - (r : ℤ)))
      (reflectIdx nx ((j : ℤ) + (uv.2 : ℤ) - (r : ℤ))))
    (center_mem_windowOffsets r)
  have hii : ((i : ℤ) + ((r : ℕ) : ℤ) - ((r : ℕ) : ℤ)) = (i : ℤ) := by ring
  have hjj : ((j : ℤ) + ((r : ℕ) : ℤ) - ((r : ℕ) : ℤ)) = (j : ℤ) := by ring
  simp only [hii, hjj, reflectIdx_coe ny i hi, reflectIdx_coe nx j hj] at h
  exact h

lemma windowMax_zero (ny nx : ℕ) (f : ℕ → ℕ → ℚ) (i j : ℕ)
    (hi : i < ny) (hj : j < nx) : windowMax ny nx 0 f i j = f i j := by
  apply le_antisymm
  · apply Finset.sup'_le
    intro uv huv
    simp only [windowOffsets, Finset.mem_product, Finset.mem_range] at huv
    have hu : uv.1 = 0 := by omega
    have hv : uv.2 = 0 := by omega
    have hii : ((i : ℤ) + ((uv.1 : ℕ) : ℤ) - (((0 : ℕ)) : ℤ)) = (i : ℤ) := by
      rw [hu]; simp
    have hjj : ((j : ℤ) + ((uv.2 : ℕ) : ℤ) - (((0 : ℕ)) : ℤ)) = (j : ℤ) := by
      rw [hv]; simp
    simp only [hii, hjj, reflectIdx_coe ny i hi, reflectIdx_coe nx j hj]
    exact le_refl _
  · exact windowMax_center_le ny nx 0 f i j hi hj

lemma mem_windowCells_of_offsets (ny nx r i j : ℕ) (uv : ℕ × ℕ)
    (huv : uv ∈ windowOffsets r) :
    (reflectIdx ny ((i : ℤ) + (uv.1 : ℤ) - (r : ℤ)),
     reflectIdx nx ((j : ℤ) + (uv.2 : ℤ) - (r : ℤ))) ∈ windowCells ny nx r i j := by
  exact Finset.mem_image_of_mem _ huv

lemma center_mem_windowCells (ny nx r i j : ℕ) (hi : i < ny) (hj : j < nx) :
    (i, j) ∈ windowCells ny nx r i j := by
  have h := mem_windowCells_of_offsets ny nx r i j (r, r) (center_mem_windowOffsets r)
  have hii : ((i : ℤ) + ((r : ℕ) : ℤ) - ((r : ℕ) : ℤ)) = (i : ℤ) := by ring
  have hjj : ((j : ℤ) + ((r : ℕ) : ℤ) - ((r : ℕ) : ℤ)) = (j : ℤ) := by ring
  rw [hii, hjj, reflectIdx_coe ny i hi, reflectIdx_coe nx j hj] at h
  exact h

lemma matched_data_self (c : VicCube) (lm : ℕ → ℕ → Bool) (b : Bool) (i j : ℕ)
    (hb : lm i j = b) (hm : c.mask i j = false) :
    matched_data c lm b i j = c.data i j := by
  unfold matched_data unmasked_cube_data
  rw [hb, hm]
  simp

/-- With a land/sea mask, the windowed maximum of a category pass is the
maximum of the data over the same-category, originally-unmasked cells of the
window, provided every data value exceeds the negative sentinel. -/
lemma windowMax_matched_char (c : VicCube) (lm : ℕ → ℕ → Bool) (r i j : ℕ)
    (b : Bool) (hi : i < c.ny) (hj : j < c.nx) (hb : lm i j = b)
    (hm : c.mask i j = false)
    (hleg : ∀ a a2 : ℕ, -fillValue < c.data a a2) :
    (∃ z ∈ categoryCells c lm b r i j,
      windowMax c.ny c.nx r (matched_data c lm b) i j = c.data z.1 z.2)
    ∧ ∀ w ∈ categoryCells c lm b r i j,
        c.data w.1 w.2 ≤ windowMax c.ny c.nx r (matched_data c lm b) i j := by
  have hcenter : matched_data c lm b i j = c.data i j := matched_data_self c lm b i j hb hm
  have hcen_le : c.data i j ≤ windowMax c.ny c.nx r (matched_data c lm b) i j := by
    have h := windowMax_center_le c.ny c.nx r (matched_data c lm b) i j hi hj
    rwa [hcenter] at h
  constructor
  · obtain ⟨uv, huv, hval⟩ := Finset.exists_mem_eq_sup' (windowOffsets_nonempty r)
      (fun uv : ℕ × ℕ =>
        matched_data c lm b (reflectIdx c.ny ((i : ℤ) + (uv.1 : ℤ) - (r : ℤ)))
          (reflectIdx c.nx ((j : ℤ) + (uv.2 : ℤ) - (r : ℤ))))
    set z1 := reflectIdx c.ny ((i : ℤ) + (uv.1 : ℤ) - (r : ℤ)) with hz1
    set z2 := reflectIdx c.nx ((j : ℤ) + (uv.2 : ℤ) - (r : ℤ)) with hz2
    have hW : windowMax c.ny c.nx r (matched_data c lm b) i j = matched_data c lm b z1 z2 := hval
    have hzmem : (z1, z2) ∈ windowCells c.ny c.nx r i j :=
      mem_windowCells_of_offsets c.ny c.nx r i j uv huv
    by_cases hcat : lm z1 z2 = b
    · by_cases hmask : c.mask z1 z2 = true
      · exfalso
        have : matched_data c lm b z1 z2 = -fillValue := by
          unfold matched_data unmasked_cube_data
          rw [hcat, hmask]
          simp
        rw [this] at hW
        have h1 : c.data i j ≤ -fillValue := by rw [← hW]; exact hcen_le
        exact absurd h1 (not_le.mpr (hleg i j))
      · refine ⟨(z1, z2), ?_, ?_⟩
        · unfold categoryCells
          rw [Finset.mem_filter]
          exact ⟨hzmem, hcat, by simpa using hmask⟩
        · rw [hW]
          exact matched_data_self c lm b z1 z2 hcat (by simpa using hmask)
    · exfalso
      have : matched_data c lm b z1 z2 = -fillValue := by
        unfold matched_data
        rw [if_pos hcat]
      rw [this] at hW
      have h1 : c.data i j ≤ -fillValue := by rw [← hW]; exact hcen_le
      exact absurd h1 (not_le.mpr (hleg i j))
  · intro w hw
    unfold categoryCells at hw
    rw [Finset.mem_filter] at hw
    obtain ⟨hwmem, hwcat, hwmask⟩ := hw
    unfold windowCells at hwmem
    rw [Finset.mem_image] at hwmem
    obtain ⟨uv, huv, heq⟩ := hwmem
    have hterm : matched_data c lm b (reflectIdx c.ny ((i : ℤ) + (uv.1 : ℤ) - (r : ℤ)))
        (reflectIdx c.nx ((j : ℤ) + (uv.2 : ℤ) - (r : ℤ))) = c.data w.1 w.2 := by
      have h1 : reflectIdx c.ny ((i : ℤ) + (uv.1 : ℤ) - (r : ℤ)) = w.1 := by
        rw [← heq]
      have h2 : reflectIdx c.nx ((j : ℤ) + (uv.2 : ℤ) - (r : ℤ)) = w.2 := by
        rw [← heq]
      rw [h1, h2]
      exact matched_data_self c lm b w.1 w.2 hwcat hwmask
    have h := Finset.le_sup'
      (f := fun uv : ℕ × ℕ =>
        matched_data c lm b (reflectIdx c.ny ((i : ℤ) + (uv.1 : ℤ) - (r : ℤ)))
          (reflectIdx c.nx ((j : ℤ) + (uv.2 : ℤ) - (r : ℤ)))) huv
    rw [hterm] at h
    exact h

/-- Without a land/sea mask and with no originally-masked cell, the windowed
maximum is the maximum of the data over all cells of the window. -/
lemma windowMax_unmasked_char (c : VicCube) (r i j : ℕ)
    (hmall : ∀ a a2 : ℕ, c.mask a a2 = false) :
    (∃ z ∈ windowCells c.ny c.nx r i j,
      windowMax c.ny c.nx r (unmasked_cube_data c) i j = c.data z.1 z.2)
    ∧ ∀ w ∈ windowCells c.ny c.nx r i j,
        c.data w.1 w.2 ≤ windowMax c.ny c.nx r (unmasked_cube_data c) i j := by
  have hud : ∀ a a2 : ℕ, unmasked_cube_data c a a2 = c.data a a2 := by
    intro a a2
    unfold unmasked_cube_data
    rw [hmall a a2]
    simp
  constructor
  · obtain ⟨uv, huv, hval⟩ := Finset.exists_mem_eq_sup' (windowOffsets_nonempty r)
      (fun uv : ℕ × ℕ =>
        unmasked_cube_data c (reflectIdx c.ny ((i : ℤ) + (uv.1 : ℤ) - (r : ℤ)))
          (reflectIdx c.nx ((j : ℤ) + (uv.2 : ℤ) - (r : ℤ))))
    refine ⟨(reflectIdx c.ny ((i : ℤ) + (uv.1 : ℤ) - (r : ℤ)),
             reflectIdx c.nx ((j : ℤ) + (uv.2 : ℤ) - (r : ℤ))),
      mem_windowCells_of_offsets c.ny c.nx r i j uv huv, ?_⟩
    have hW : windowMax c.ny c.nx r (unmasked_cube_data c) i j
        = unmasked_cube_data c (reflectIdx c.ny ((i : ℤ) + (uv.1 : ℤ) - (r : ℤ)))
            (reflectIdx c.nx ((j : ℤ) + (uv.2 : ℤ) - (r : ℤ))) := hval
    rw [hW, hud]
  · intro w hw
    unfold windowCells at hw
    rw [Finset.mem_image] at hw
    obtain ⟨uv, huv, heq⟩ := hw
    have h := Finset.le_sup'
      (f := fun uv : ℕ × ℕ =>
        unmasked_cube_data c (reflectIdx c.ny ((i : ℤ) + (uv.1 : ℤ) - (r : ℤ)))
          (reflectIdx c.nx ((j : ℤ) + (uv.2 : ℤ) - (r : ℤ)))) huv
    have hterm : unmasked_cube_data c (reflectIdx c.ny ((i : ℤ) + (uv.1 : ℤ) - (r : ℤ)))
        (reflectIdx c.nx ((j : ℤ) + (uv.2 : ℤ) - (r : ℤ))) = c.data w.1 w.2 := by
      have h1 : reflectIdx c.ny ((i : ℤ) + (uv.1 : ℤ) - (r : ℤ)) = w.1 := by rw [← heq]
      have h2 : reflectIdx c.nx ((j : ℤ) + (uv.2 : ℤ) - (r : ℤ)) = w.2 := by rw [← heq]
      rw [h1, h2, hud]
    rw [hterm] at h
    exact h

/-! ## Masked-coordinate collapse
(`CollapseMaskedNeighbourhoodCoordinate`, use_nbhood.py lines 180-308) -/

/-- A neighbourhood-result cube with `k` masking-coordinate categories and `p`
spatial locations.  A `NaN` data value is `none`; `mask i j = true` means the
cell is masked in the cube's masked data array. -/
structure NbCube (k p : ℕ) where
  data : Fin k → Fin p → Option ℚ
  mask : Fin k → Fin p → Bool

/-- `np.ma.masked_invalid(cube.data)`: data values are kept, the mask is
extended to every NaN cell. -/
def masked_invalid (k p : ℕ) (c : NbCube k p) : NbCube k p :=
  { data := c.data, mask := fun i j => c.mask i j || (c.data i j).isNone }

/-- The state of the input cube after `CollapseMaskedNeighbourhoodCoordinate.
process` (use_nbhood.py line 271: `cube.data = ma.masked_invalid(cube.data)`
rebinds the input cube's data to the NaN-masked array). -/
def collapse_process_input_after (k p : ℕ) (c : NbCube k p) : NbCube k p :=
  masked_invalid k p c

/-- Modelled from the spec: `NeighbourhoodProcessing`
(`improver.nbhood.nbhood`), the kernel primitive that
`ApplyNeighbourhoodProcessingWithAMask.process` delegates to, is not part of
the excerpt; per the spec (section 3, Lifecycle) every transform produces a
new field and never mutates its input field's data array, so the post-call
state of the input cube is the unchanged input.  The code of `process` itself
(use_nbhood.py lines 117-177) only reads `cube` through slicing. -/
def apply_nbhood_with_mask_input_after (k p : ℕ) (c : NbCube k p) : NbCube k p :=
  c

/-- `ma.is_masked(weights.data)`: whether any weight cell is masked. -/
def weightsIsMaskedB (k p : ℕ) (wmask : Fin k → Fin p → Bool) : Bool :=
  decide (∃ i : Fin k, ∃ j : Fin p, wmask i j = true)

/-- The zeroing condition of `reweight_weights` (use_nbhood.py lines 241-243):
`condition = np.isnan(nbhood_cube.data)`, intersected with the unmasked weight
cells when the weights carry a mask. -/
def reweight_condition (k p : ℕ) (isnan wmask : Fin k → Fin p → Bool)
    (i : Fin k) (j : Fin p) : Bool :=
  isnan i j && (!(weightsIsMaskedB k p wmask) || !(wmask i j))

/-- `self.weights.data[condition] = 0.0` (use_nbhood.py line 245). -/
def zero_weights (k p : ℕ) (isnan wmask : Fin k → Fin p → Bool)
    (w : Fin k → Fin p → ℚ) (i : Fin k) (j : Fin p) : ℚ :=
  if reweight_condition k p isnan wmask i j then 0 else w i j

/-- Modelled from the spec: `WeightsUtilities.normalise_weights`
(`improver.blending.weights`) is not part of the excerpt.  Per the spec
(section 4.4), it renormalizes the weights along the masking-coordinate axis
so they sum to 1 at every spatial location, and at a location whose weights
sum to zero it is a no-op (no division by zero, zero weights stay zero). -/
def normalise_weights (k p : ℕ) (w : Fin k → Fin p → ℚ)
    (i : Fin k) (j : Fin p) : ℚ :=
  let s := ∑ a : Fin k, w a j
  if s = 0 then w i j else w i j / s

/-- `CollapseMaskedNeighbourhoodCoordinate.reweight_weights` (use_nbhood.py
lines 225-248): zero the weights at the condition cells, then renormalize
along the masking-coordinate axis. -/
def reweight_weights (k p : ℕ) (isnan wmask : Fin k → Fin p → Bool)
    (w : Fin k → Fin p → ℚ) : Fin k → Fin p → ℚ :=
  normalise_weights k p (zero_weights k p isnan wmask w)

/-- A cell method record: the reduction name and the coordinate names it was
applied over. -/
structure CellMethodM where
  method : String
  coord_names : List String

/-- The metadata of a cube that matters to the collapse output: its coordinate
names and its cell methods. -/
structure MetaCube where
  coords : List String
  cell_methods : List CellMethodM

/-- Modelled from the spec/iris semantics: `cube.collapsed(coord,
iris.analysis.MEAN, ...)` keeps every coordinate (the collapsed one becomes
scalar) and appends a `mean` cell method over the collapsed coordinate. -/
def collapsedMeta (coord : String) (c : MetaCube) : MetaCube :=
  { coords := c.coords,
    cell_methods := c.cell_methods ++ [⟨"mean", [coord]⟩] }

/-- The metadata pipeline of `CollapseMaskedNeighbourhoodCoordinate.process`
(use_nbhood.py lines 289-306): collapse with MEAN, then
`result.remove_coord(self.coord_masked)` and the filtering of cell methods
whose `coord_names` is exactly `(self.coord_masked,)`. -/
def collapse_process_meta (coord_masked : String) (c : MetaCube) : MetaCube :=
  let collapsed := collapsedMeta coord_masked c
  let afterRemove : MetaCube :=
    { coords := collapsed.coords.filter (fun n => n ≠ coord_masked),
      cell_methods := collapsed.cell_methods }
  { afterRemove with
    cell_methods :=
      afterRemove.cell_methods.filter (fun cm => cm.coord_names ≠ [coord_masked]) }

/-! ## Claim theorems -/

/-- C1 (amended): `OccurrenceWithinVicinity.process` (via
`maximum_within_vicinity`) and `ApplyNeighbourhoodProcessingWithAMask.process`
leave the input field's data array unchanged; but
`CollapseMaskedNeighbourhoodCoordinate.process` — besides the weights
adjustment scoped inside the collapse call — also replaces the input field's
data array with its NaN-masked equivalent: the data values are preserved while
the element mask is extended to every NaN cell (use_nbhood.py line 271). -/
theorem transform_input_mutation (k p : ℕ) (c : NbCube k p) (v : VicCube)
    (r : ℕ) (lm : Option (ℕ → ℕ → Bool)) :
    (maximum_within_vicinity_call v r lm).2 = v
    ∧ apply_nbhood_with_mask_input_after k p c = c
    ∧ (collapse_process_input_after k p c).data = c.data
    ∧ (collapse_process_input_after k p c).mask
        = fun i j => c.mask i j || (c.data i j).isNone :=
  ⟨rfl, rfl, rfl, rfl⟩

/-- A 1-category, 1-location cube whose single cell is NaN and unmasked. -/
def nanCellCube : NbCube 1 1 :=
  { data := fun _ _ => none, mask := fun _ _ => false }

/-- C1 counterexample: on a cube holding a NaN, the input field's data array
is changed by `CollapseMaskedNeighbourhoodCoordinate.process` — its element
mask at the NaN cell flips from unmasked to masked, so the input is not
unchanged and the mutation is not limited to the weights adjustment. -/
theorem collapse_mutates_input_cex :
    nanCellCube.mask 0 0 = false
    ∧ (collapse_process_input_after 1 1 nanCellCube).mask 0 0 = true :=
  ⟨rfl, rfl⟩

/-- C8: the output of `CollapseMaskedNeighbourhoodCoordinate.process` has no
coordinate named `coord_masked`, and every cell method whose coordinate list
is exactly that single coordinate is absent from the output's cell methods. -/
theorem collapse_removes_coord (coord : String) (c : MetaCube) :
    coord ∉ (collapse_process_meta coord c).coords
    ∧ [coord] ∉ (collapse_process_meta coord c).cell_methods.map
        (fun cm => cm.coord_names) := by
  constructor
  · intro hmem
    unfold collapse_process_meta collapsedMeta at hmem
    simp only [List.mem_filter, decide_eq_true_eq] at hmem
    exact hmem.2 rfl
  · intro hmem
    unfold collapse_process_meta collapsedMeta at hmem
    simp only [List.mem_map, List.mem_filter, decide_eq_true_eq] at hmem
    obtain ⟨cm, ⟨hcm1, hcm2⟩, hcm3⟩ := hmem
    exact hcm2 hcm3

/-- C2: `reweight_weights` zeroes the weight at every cell where the
neighbourhood result is NaN (restricted, when the weights carry an element
mask, to cells unmasked in the weights), then renormalizes along the
masking-coordinate axis so the weights sum to 1 at every spatial location
that retains a nonzero weight; at a location where all weights were zeroed
the weights remain all zero and no division by zero occurs. -/
theorem reweight_weights_spec (k p : ℕ) (isnan wmask : Fin k → Fin p → Bool)
    (w : Fin k → Fin p → ℚ) (hw : ∀ i j, 0 ≤ w i j) :
    (∀ i j, reweight_condition k p isnan wmask i j = true →
      reweight_weights k p isnan wmask w i j = 0)
    ∧ (∀ j : Fin p, (∃ i, zero_weights k p isnan wmask w i j ≠ 0) →
      ∑ i : Fin k, reweight_weights k p isnan wmask w i j = 1)
    ∧ (∀ j : Fin p, (∀ i, zero_weights k p isnan wmask w i j = 0) →
      ∀ i, reweight_weights k p isnan wmask w i j = 0) := by
  have hz : ∀ i j, 0 ≤ zero_weights k p isnan wmask w i j := by
    intro i j
    unfold zero_weights
    split
    · exact le_refl 0
    · exact hw i j
  refine ⟨?_, ?_, ?_⟩
  · intro i j hc
    have h0 : zero_weights k p isnan wmask w i j = 0 := by
      unfold zero_weights
      rw [if_pos hc]
    simp only [reweight_weights, normalise_weights]
    split
    · exact h0
    · rw [h0, zero_div]
  · intro j hex
    obtain ⟨i0, hi0⟩ := hex
    have hpos : 0 < ∑ a : Fin k, zero_weights k p isnan wmask w a j := by
      apply Finset.sum_pos'
      · intro i _
        exact hz i j
      · exact ⟨i0, Finset.mem_univ i0, lt_of_le_of_ne (hz i0 j) (Ne.symm hi0)⟩
    have hs : (∑ a : Fin k, zero_weights k p isnan wmask w a j) ≠ 0 :=
      ne_of_gt hpos
    simp only [reweight_weights, normalise_weights, if_neg hs]
    rw [← Finset.sum_div]
    exact div_self hs
  · intro j hall i
    have hs : (∑ a : Fin k, zero_weights k p isnan wmask w a j) = 0 := by
      apply Finset.sum_eq_zero
      intro a _
      exact hall a
    simp only [reweight_weights, normalise_weights, if_pos hs]
    exact hall i

/-- Uniform two-category weights `[0.5, 0.5]` at one spatial location. -/
def reweightWitnessW : Fin 2 → Fin 1 → ℚ := fun _ _ => 1 / 2

/-- Category 0's neighbourhood result is NaN at the single location. -/
def reweightWitnessNan : Fin 2 → Fin 1 → Bool := fun i _ => i == 0

/-- Unmasked weights. -/
def reweightWitnessWmask : Fin 2 → Fin 1 → Bool := fun _ _ => false

/-- Witness for C2 at uniform weights `[0.5, 0.5]` with category 0 NaN. -/
theorem reweight_weights_spec_witness :
    (∀ i : Fin 2, ∀ j : Fin 1, (0 : ℚ) ≤ reweightWitnessW i j)
    ∧ ((∀ i j, reweight_condition 2 1 reweightWitnessNan reweightWitnessWmask i j = true →
        reweight_weights 2 1 reweightWitnessNan reweightWitnessWmask reweightWitnessW i j = 0)
      ∧ (∀ j : Fin 1,
          (∃ i, zero_weights 2 1 reweightWitnessNan reweightWitnessWmask reweightWitnessW i j ≠ 0) →
          ∑ i : Fin 2,
            reweight_weights 2 1 reweightWitnessNan reweightWitnessWmask reweightWitnessW i j = 1)
      ∧ (∀ j : Fin 1,
          (∀ i, zero_weights 2 1 reweightWitnessNan reweightWitnessWmask reweightWitnessW i j = 0) →
          ∀ i, reweight_weights 2 1 reweightWitnessNan reweightWitnessWmask reweightWitnessW i j = 0)) :=
  ⟨by intro i j; norm_num [reweightWitnessW],
   reweight_weights_spec 2 1 reweightWitnessNan reweightWitnessWmask reweightWitnessW
     (by intro i j; norm_num [reweightWitnessW])⟩

/-- C3: with a land/sea mask, the vicinity maximum at each unmasked cell is
the maximum of the data over the cells of the same category within the window
only (so a value never propagates across the land/sea boundary); without a
mask (and with no originally-masked cell) it is the maximum over all cells of
the window.  The hypothesis `hleg` states that every data value is a
legitimate value, i.e. exceeds the negative sentinel `-fillValue` used for
cross-category cells. -/
theorem landsea_no_cross_contamination (c : VicCube) (lm : ℕ → ℕ → Bool)
    (r i j : ℕ) (hi : i < c.ny) (hj : j < c.nx) (hm : c.mask i j = false)
    (hleg : ∀ a a2 : ℕ, -fillValue < c.data a a2) :
    ((∃ z ∈ categoryCells c lm (lm i j) r i j,
        (maximum_within_vicinity c r (some lm)).data i j = c.data z.1 z.2)
      ∧ ∀ w ∈ categoryCells c lm (lm i j) r i j,
          c.data w.1 w.2 ≤ (maximum_within_vicinity c r (some lm)).data i j)
    ∧ ((∀ a a2 : ℕ, c.mask a a2 = false) →
      (∃ z ∈ windowCells c.ny c.nx r i j,
          (maximum_within_vicinity c r none).data i j = c.data z.1 z.2)
        ∧ ∀ w ∈ windowCells c.ny c.nx r i j,
            c.data w.1 w.2 ≤ (maximum_within_vicinity c r none).data i j) := by
  constructor
  · have h := windowMax_matched_char c lm r i j (lm i j) hi hj rfl hm hleg
    have hm2 : (maximum_within_vicinity c r (some lm)).data i j
        = windowMax c.ny c.nx r (matched_data c lm (lm i j)) i j := by
      unfold maximum_within_vicinity max_data
      simp only [hm]
      cases hlm : lm i j
      · simp [hlm]
      · simp [hlm]
    rw [hm2]
    exact h
  · intro hmall
    have h := windowMax_unmasked_char c r i j hmall
    have hm2 : (maximum_within_vicinity c r none).data i j
        = windowMax c.ny c.nx r (unmasked_cube_data c) i j := by
      unfold maximum_within_vicinity max_data
      simp [hm]
    rw [hm2]
    exact h

/-- C7: when the radius resolves to 0 grid cells, the kernel has edge length
1 and `maximum_within_vicinity` leaves every originally-unmasked data value
unchanged; and when neither a physical radius nor a grid-point radius is
configured, the resolved radius is 0. -/
theorem zero_radius_identity (c : VicCube) (lm : Option (ℕ → ℕ → Bool))
    (i j : ℕ) (hi : i < c.ny) (hj : j < c.nx) (hm : c.mask i j = false) :
    (maximum_within_vicinity c 0 lm).data i j = c.data i j
    ∧ ∀ pts : List ℚ, resolve_grid_point_radius none none pts = Except.ok 0 := by
  constructor
  · have hgoal : (maximum_within_vicinity c 0 lm).data i j = max_data c 0 lm i j := by
      unfold maximum_within_vicinity
      simp [hm]
    rw [hgoal]
    unfold max_data
    cases lm with
    | none =>
      rw [windowMax_zero c.ny c.nx (unmasked_cube_data c) i j hi hj]
      unfold unmasked_cube_data
      simp [hm]
    | some m =>
      cases hlm : m i j
      · simp only [hlm, Bool.false_eq_true, if_false]
        rw [windowMax_zero c.ny c.nx (matched_data c m false) i j hi hj]
        exact matched_data_self c m false i j hlm hm
      · simp only [hlm, if_true]
        rw [windowMax_zero c.ny c.nx (matched_data c m true) i j hi hj]
        exact matched_data_self c m true i j hlm hm
  · intro pts
    rfl

/-- C9: the vicinity maximum at each originally-unmasked cell is greater than
or equal to that cell's input value (the window contains the cell itself),
for any radius and with or without a land/sea mask. -/
theorem vicinity_extensive (c : VicCube) (r : ℕ) (lm : Option (ℕ → ℕ → Bool))
    (i j : ℕ) (hi : i < c.ny) (hj : j < c.nx) (hm : c.mask i j = false) :
    c.data i j ≤ (maximum_within_vicinity c r lm).data i j := by
  have hout : (maximum_within_vicinity c r lm).data i j = max_data c r lm i j := by
    unfold maximum_within_vicinity
    simp [hm]
  rw [hout]
  unfold max_data
  cases lm with
  | none =>
    have h := windowMax_center_le c.ny c.nx r (unmasked_cube_data c) i j hi hj
    have hu : unmasked_cube_data c i j = c.data i j := by
      unfold unmasked_cube_data
      simp [hm]
    rwa [hu] at h
  | some m =>
    cases hlm : m i j
    · simp only [hlm, Bool.false_eq_true, if_false]
      have h := windowMax_center_le c.ny c.nx r (matched_data c m false) i j hi hj
      rwa [matched_data_self c m false i j hlm hm] at h
    · simp only [hlm, if_true]
      have h := windowMax_center_le c.ny c.nx r (matched_data c m true) i j hi hj
      rwa [matched_data_self c m true i j hlm hm] at h

/-- C4: on an axis whose points are equally spaced with step `s`,
`calculate_grid_spacing` returns the mean of the consecutive absolute
differences, which equals `|s|`; more generally whenever every consecutive
difference is within `rtol` relative tolerance of the mean it returns the
mean; and whenever some consecutive difference deviates from the mean by more
than `rtol` relative tolerance it raises the invalid-grid error. -/
theorem grid_spacing_spec (a s rtol : ℚ) (n : ℕ) (points : List ℚ)
    (hr : 0 ≤ rtol)
    (hdev : ∃ d ∈ diffsOf points,
      rtol * |meanDiffs points| < |d - meanDiffs points|) :
    calculate_grid_spacing (apPoints a s (n + 2)) rtol = Except.ok |s|
    ∧ calculate_grid_spacing points rtol
        = Except.error "Coordinate points are not equally spaced"
    ∧ ∀ q : List ℚ,
        (∀ d ∈ diffsOf q, |d - meanDiffs q| ≤ rtol * |meanDiffs q|) →
        calculate_grid_spacing q rtol = Except.ok (meanDiffs q) := by
  refine ⟨calculate_grid_spacing_apPoints a s rtol n hr, ?_, ?_⟩
  · have hne : ¬ ((diffsOf points).all
        (fun d => decide (|d - meanDiffs points| ≤ rtol * |meanDiffs points|)) = true) := by
      rw [List.all_eq_true]
      push_neg
      obtain ⟨d, hdm, hgt⟩ := hdev
      refine ⟨d, hdm, ?_⟩
      simpa using not_le.mpr hgt
    unfold calculate_grid_spacing
    rw [if_neg hne]
  · intro q hq
    have hall : ((diffsOf q).all
        (fun d => decide (|d - meanDiffs q| ≤ rtol * |meanDiffs q|)) = true) := by
      rw [List.all_eq_true]
      intro d hd
      simpa only [decide_eq_true_eq] using hq d hd
    unfold calculate_grid_spacing
    rw [if_pos hall]

lemma distance_to_cells_ok (points : List ℚ) (d sp : ℚ) (ri : Bool)
    (hd : ¬ d ≤ 0) (hc : calculate_grid_spacing points rtolDefault = Except.ok sp) :
    distance_to_number_of_grid_cells points d ri =
      (if ri then
        if ratTrunc (d / |sp|) = 0 then Except.error "gives zero cell extent"
        else Except.ok (Sum.inl (ratTrunc (d / |sp|)))
      else Except.ok (Sum.inr (d / |sp|))) := by
  unfold distance_to_number_of_grid_cells
  rw [if_neg hd, hc]

/-- C5: `distance_to_number_of_grid_cells` raises the invalid-argument error
for every `distance ≤ 0`; for a positive distance on a uniformly spaced grid
with step `s` it computes `distance / |s|`, and with `return_int = true` it
truncates the quotient toward zero, raising the invalid-argument error when
the truncated result is zero. -/
theorem distance_to_cells_spec (points : List ℚ) (a s d : ℚ) (n : ℕ)
    (_hs : s ≠ 0) (hd : 0 < d) :
    (∀ d2 : ℚ, d2 ≤ 0 → distance_to_number_of_grid_cells points d2 true
        = Except.error "Please specify a positive distance in metres.")
    ∧ distance_to_number_of_grid_cells (apPoints a s (n + 2)) d true
        = (if ratTrunc (d / |s|) = 0 then Except.error "gives zero cell extent"
           else Except.ok (Sum.inl (ratTrunc (d / |s|)))) := by
  constructor
  · intro d2 hd2
    unfold distance_to_number_of_grid_cells
    rw [if_pos hd2]
  · rw [distance_to_cells_ok _ _ _ _ (not_le.mpr hd)
      (calculate_grid_spacing_apPoints a s rtolDefault n (by norm_num [rtolDefault]))]
    rw [if_pos rfl, abs_abs]

/-- C10: for every positive distance on a uniformly spaced grid,
`distance_to_number_of_grid_cells` with `return_int = false` returns the
exact quotient `distance / |s|` as a fraction and never raises the
zero-cell-extent error, even when that quotient lies strictly between 0
and 1. -/
theorem distance_to_cells_float_spec (a s d : ℚ) (n : ℕ)
    (_hs : s ≠ 0) (hd : 0 < d) :
    distance_to_number_of_grid_cells (apPoints a s (n + 2)) d false
      = Except.ok (Sum.inr (d / |s|)) := by
  rw [distance_to_cells_ok _ _ _ _ (not_le.mpr hd)
    (calculate_grid_spacing_apPoints a s rtolDefault n (by norm_num [rtolDefault]))]
  rw [if_neg Bool.false_ne_true, abs_abs]

/-- C6: on an equal-area grid with spacing `s > 0`, for a distance that is an
exact positive multiple `k * s` of the spacing, the composition
`number_of_grid_cells_to_distance ∘ distance_to_number_of_grid_cells`
returns a distance within one cell-width of the input distance (in fact it
returns it exactly). -/
theorem cells_round_trip_spec (g : GridCube) (ax ay s : ℚ) (nx2 ny2 k : ℕ)
    (hs : 0 < s) (hk : 1 ≤ k)
    (hgx : g.xpoints = apPoints ax s (nx2 + 2))
    (hgy : g.ypoints = apPoints ay s (ny2 + 2)) :
    ∃ res : ℚ, roundTrip g ((k : ℚ) * s) = Except.ok res
      ∧ |res - (k : ℚ) * s| ≤ s := by
  have habs : |s| = s := abs_of_pos hs
  have hkq : (0 : ℚ) < (k : ℚ) := by
    have : (0 : ℕ) < k := Nat.lt_of_lt_of_le Nat.zero_lt_one hk
    exact_mod_cast this
  have hd : 0 < (k : ℚ) * s := mul_pos hkq hs
  have hcalcx := calculate_grid_spacing_apPoints ax s rtolDefault nx2
    (by norm_num [rtolDefault])
  have hcalcy := calculate_grid_spacing_apPoints ay s rtolDefault ny2
    (by norm_num [rtolDefault])
  have hdiv : ((k : ℚ) * s) / |s| = (k : ℚ) := by
    rw [habs]
    field_simp
  have htr : ratTrunc ((k : ℚ) * s / |s|) = (k : ℤ) := by
    rw [hdiv]
    unfold ratTrunc
    rw [if_pos hkq.le]
    exact_mod_cast Int.floor_natCast k
  have hkz : (k : ℤ) ≠ 0 := by
    have : (0 : ℕ) < k := Nat.lt_of_lt_of_le Nat.zero_lt_one hk
    exact_mod_cast Nat.pos_iff_ne_zero.mp this
  have h1 : distance_to_number_of_grid_cells g.xpoints ((k : ℚ) * s) true
      = Except.ok (Sum.inl (k : ℤ)) := by
    rw [hgx, distance_to_cells_ok _ _ _ _ (not_le.mpr hd) hcalcx]
    rw [if_pos rfl, abs_abs, htr, if_neg hkz]
  have hclose : iscloseB |s| |s| = true := by
    unfold iscloseB
    simp only [sub_self, abs_zero, decide_eq_true_eq, atolDefault, rtolDefault]
    positivity
  have hcheck : check_if_grid_is_equal_area g = Except.ok () := by
    unfold check_if_grid_is_equal_area
    rw [hgx, hgy, hcalcx, hcalcy]
    simp only [hclose]
    rfl
  have h2 : number_of_grid_cells_to_distance g (k : ℤ) = Except.ok (s * (k : ℚ)) := by
    unfold number_of_grid_cells_to_distance
    rw [hcheck, hgx, hcalcx]
    simp only [habs]
    push_cast
    rfl
  refine ⟨s * (k : ℚ), ?_, ?_⟩
  · unfold roundTrip
    rw [h1]
    exact h2
  · rw [mul_comm]
    simp only [sub_self, abs_zero]
    exact hs.le

/-! ## Witnesses -/

/-- A 4×4 slice with no originally-masked cell and data `i + j`. -/
def vicWitnessCube : VicCube :=
  { ny := 4, nx := 4,
    data := fun i j => (i : ℚ) + (j : ℚ),
    mask := fun _ _ => false }

/-- A land/sea split: rows 0 and 1 are land, rows 2 and 3 are sea. -/
def vicWitnessLand : ℕ → ℕ → Bool := fun i _ => decide (i < 2)

lemma vicWitnessCube_leg : ∀ a a2 : ℕ, -fillValue < vicWitnessCube.data a a2 := by
  intro a a2
  have h1 : (0 : ℚ) < fillValue := by norm_num [fillValue]
  have h2 : (0 : ℚ) ≤ (a : ℚ) + (a2 : ℚ) := by positivity
  show -fillValue < (a : ℚ) + (a2 : ℚ)
  linarith

/-- Witness for C3 on the 4×4 grid split into land and sea rows. -/
theorem landsea_no_cross_contamination_witness :
    ((0 : ℕ) < vicWitnessCube.ny ∧ (0 : ℕ) < vicWitnessCube.nx
      ∧ vicWitnessCube.mask 0 0 = false
      ∧ ∀ a a2 : ℕ, -fillValue < vicWitnessCube.data a a2)
    ∧ (((∃ z ∈ categoryCells vicWitnessCube vicWitnessLand (vicWitnessLand 0 0) 1 0 0,
          (maximum_within_vicinity vicWitnessCube 1 (some vicWitnessLand)).data 0 0
            = vicWitnessCube.data z.1 z.2)
        ∧ ∀ w ∈ categoryCells vicWitnessCube vicWitnessLand (vicWitnessLand 0 0) 1 0 0,
            vicWitnessCube.data w.1 w.2
              ≤ (maximum_within_vicinity vicWitnessCube 1 (some vicWitnessLand)).data 0 0)
      ∧ ((∀ a a2 : ℕ, vicWitnessCube.mask a a2 = false) →
        (∃ z ∈ windowCells vicWitnessCube.ny vicWitnessCube.nx 1 0 0,
            (maximum_within_vicinity vicWitnessCube 1 none).data 0 0
              = vicWitnessCube.data z.1 z.2)
          ∧ ∀ w ∈ windowCells vicWitnessCube.ny vicWitnessCube.nx 1 0 0,
              vicWitnessCube.data w.1 w.2
                ≤ (maximum_within_vicinity vicWitnessCube 1 none).data 0 0)) :=
  ⟨⟨by decide, by decide, rfl, vicWitnessCube_leg⟩,
   landsea_no_cross_contamination vicWitnessCube vicWitnessLand 1 0 0
     (by decide) (by decide) rfl vicWitnessCube_leg⟩

/-- Witness for C7 at cell (1, 2) of the 4×4 grid. -/
theorem zero_radius_identity_witness :
    ((1 : ℕ) < vicWitnessCube.ny ∧ (2 : ℕ) < vicWitnessCube.nx
      ∧ vicWitnessCube.mask 1 2 = false)
    ∧ ((maximum_within_vicinity vicWitnessCube 0 (some vicWitnessLand)).data 1 2
        = vicWitnessCube.data 1 2
      ∧ ∀ pts : List ℚ, resolve_grid_point_radius none none pts = Except.ok 0) :=
  ⟨⟨by decide, by decide, rfl⟩,
   zero_radius_identity vicWitnessCube (some vicWitnessLand) 1 2
     (by decide) (by decide) rfl⟩

/-- Witness for C9 at cell (1, 1) of the 4×4 grid with radius 1. -/
theorem vicinity_extensive_witness :
    ((1 : ℕ) < vicWitnessCube.ny ∧ (1 : ℕ) < vicWitnessCube.nx
      ∧ vicWitnessCube.mask 1 1 = false)
    ∧ vicWitnessCube.data 1 1
        ≤ (maximum_within_vicinity vicWitnessCube 1 (some vicWitnessLand)).data 1 1 :=
  ⟨⟨by decide, by decide, rfl⟩,
   vicinity_extensive vicWitnessCube 1 (some vicWitnessLand) 1 1
     (by decide) (by decide) rfl⟩

lemma gridSpacingDevExample :
    ∃ d ∈ diffsOf [(0 : ℚ), 1, 5],
      (1 / 100000 : ℚ) * |meanDiffs [(0 : ℚ), 1, 5]| < |d - meanDiffs [(0 : ℚ), 1, 5]| := by
  have hd : diffsOf [(0 : ℚ), 1, 5] = [|(1 : ℚ) - 0|, |(5 : ℚ) - 1|] := rfl
  have hd2 : diffsOf [(0 : ℚ), 1, 5] = [(1 : ℚ), 4] := by
    rw [hd]
    norm_num
  have hm : meanDiffs [(0 : ℚ), 1, 5] = 5 / 2 := by
    unfold meanDiffs
    rw [hd2]
    norm_num
  rw [hd2, hm]
  refine ⟨1, by simp, ?_⟩
  rw [abs_of_pos (by norm_num : (0 : ℚ) < 5 / 2),
    abs_of_neg (by norm_num : (1 : ℚ) - 5 / 2 < 0)]
  norm_num

/-- Witness for C4: a 3-point equally spaced axis with step 2, and the
perturbed axis `[0, 1, 5]` whose differences `[1, 4]` deviate from their
mean `5/2` beyond tolerance. -/
theorem grid_spacing_spec_witness :
    ((0 : ℚ) ≤ 1 / 100000
      ∧ ∃ d ∈ diffsOf [(0 : ℚ), 1, 5],
          (1 / 100000 : ℚ) * |meanDiffs [(0 : ℚ), 1, 5]| < |d - meanDiffs [(0 : ℚ), 1, 5]|)
    ∧ (calculate_grid_spacing (apPoints 0 2 (1 + 2)) (1 / 100000) = Except.ok |(2 : ℚ)|
      ∧ calculate_grid_spacing [(0 : ℚ), 1, 5] (1 / 100000)
          = Except.error "Coordinate points are not equally spaced"
      ∧ ∀ q : List ℚ,
          (∀ d ∈ diffsOf q, |d - meanDiffs q| ≤ (1 / 100000 : ℚ) * |meanDiffs q|) →
          calculate_grid_spacing q (1 / 100000) = Except.ok (meanDiffs q)) :=
  ⟨⟨by norm_num, gridSpacingDevExample⟩,
   grid_spacing_spec 0 2 (1 / 100000) 1 [(0 : ℚ), 1, 5] (by norm_num) gridSpacingDevExample⟩

/-- Witness for C5: step 2 and distance 5 give `int(5/2) = 2` cells; the
negative-distance branch errors. -/
theorem distance_to_cells_spec_witness :
    ((2 : ℚ) ≠ 0 ∧ (0 : ℚ) < 5)
    ∧ ((∀ d2 : ℚ, d2 ≤ 0 → distance_to_number_of_grid_cells [(0 : ℚ)] d2 true
          = Except.error "Please specify a positive distance in metres.")
      ∧ distance_to_number_of_grid_cells (apPoints 0 2 (0 + 2)) 5 true
          = (if ratTrunc ((5 : ℚ) / |(2 : ℚ)|) = 0 then Except.error "gives zero cell extent"
             else Except.ok (Sum.inl (ratTrunc ((5 : ℚ) / |(2 : ℚ)|))))) :=
  ⟨⟨by norm_num, by norm_num⟩,
   distance_to_cells_spec [(0 : ℚ)] 0 2 5 0 (by norm_num) (by norm_num)⟩

/-- Witness for C10: step 2 and distance 1 give the fraction 1/2 without any
zero-cell-extent error. -/
theorem distance_to_cells_float_spec_witness :
    ((2 : ℚ) ≠ 0 ∧ (0 : ℚ) < 1)
    ∧ distance_to_number_of_grid_cells (apPoints 0 2 (0 + 2)) 1 false
        = Except.ok (Sum.inr ((1 : ℚ) / |(2 : ℚ)|)) :=
  ⟨⟨by norm_num, by norm_num⟩,
   distance_to_cells_float_spec 0 2 1 0 (by norm_num) (by norm_num)⟩

/-- An equal-area two-point-per-axis grid with spacing 2. -/
def roundTripWitnessGrid : GridCube :=
  { xpoints := apPoints 0 2 (0 + 2), ypoints := apPoints 0 2 (0 + 2) }

/-- Witness for C6: spacing 2, distance `3 * 2 = 6`; the round trip returns
6 exactly, within one cell-width. -/
theorem cells_round_trip_spec_witness :
    ((0 : ℚ) < 2 ∧ (1 : ℕ) ≤ 3
      ∧ roundTripWitnessGrid.xpoints = apPoints 0 2 (0 + 2)
      ∧ roundTripWitnessGrid.ypoints = apPoints 0 2 (0 + 2))
    ∧ ∃ res : ℚ, roundTrip roundTripWitnessGrid (((3 : ℕ) : ℚ) * 2) = Except.ok res
        ∧ |res - ((3 : ℕ) : ℚ) * 2| ≤ 2 :=
  ⟨⟨by norm_num, by norm_num, rfl, rfl⟩,
   cells_round_trip_spec roundTripWitnessGrid 0 0 2 0 0 3
     (by norm_num) (by norm_num) rfl rfl⟩
